import Mathlib

/-!
Verification of the Battlesnake move-selection core (`src/main.go`).

The Go data types and the pure decision functions (`isEdge`, `isFood`,
`isSnake`, `isValid`, `validMoves`, `makeMove`, `randomMove`) are embedded
shallowly below.  Go `int`/`int32` become `Int`; Go slices become `List`;
the global random generator is modelled by a function `rng : Nat → Nat`
where `rng n` is the raw draw used by `rand.Intn n`, reduced modulo `n`
(Go's `rand.Intn` panics when `n ≤ 0`, modelled by `Option`); Go slice
indexing, which panics out of range, is modelled by `List.getElem?`.
-/

structure Coord where
  x : Int
  y : Int
deriving DecidableEq, Repr

structure Game where
  id : String
  timeout : Int
deriving DecidableEq, Repr

structure Battlesnake where
  id : String
  name : String
  health : Int
  body : List Coord
  head : Coord
  length : Int
  shout : String
deriving DecidableEq, Repr

structure Board where
  height : Int
  width : Int
  food : List Coord
  snakes : List Battlesnake
deriving DecidableEq, Repr

structure GameRequest where
  game : Game
  turn : Int
  board : Board
  you : Battlesnake
deriving DecidableEq, Repr

structure MoveResponse where
  move : String
  shout : String
deriving DecidableEq, Repr

/-- Embeds `isEdge` (src/main.go:154-156):
`pos.X > board.Width - 1 || pos.Y > board.Height + 1 || pos.X < 0 || pos.Y < 0`. -/
def isEdge (pos : Coord) (board : Board) : Bool :=
  decide (pos.x > board.width - 1) || decide (pos.y > board.height + 1) ||
  decide (pos.x < 0) || decide (pos.y < 0)

/-- Embeds `isFood` (src/main.go:158-165): linear scan of `board.Food`. -/
def isFood (pos : Coord) (board : Board) : Bool :=
  board.food.any fun coord => coord.y == pos.y && coord.x == pos.x

/-- Embeds `isSnake` (src/main.go:167-179): for each snake, scan its body,
then compare against its head. -/
def isSnake (pos : Coord) (board : Board) : Bool :=
  board.snakes.any fun snake =>
    (snake.body.any fun coord => coord.y == pos.y && coord.x == pos.x) ||
    (snake.head.y == pos.y && snake.head.x == pos.x)

/-- Embeds `isValid` (src/main.go:150-152). -/
def isValid (pos : Coord) (board : Board) : Bool :=
  !isEdge pos board && !isSnake pos board

/-- Embeds `validMoves` (src/main.go:112-148): append each direction string
whose offset coordinate passes `isValid`, in the fixed order
left, right, down, up. -/
def validMoves (pos : Coord) (board : Board) : List String :=
  let moves : List String := []
  let left : Coord := { x := pos.x - 1, y := pos.y }
  let moves := if isValid left board then moves ++ ["left"] else moves
  let right : Coord := { x := pos.x + 1, y := pos.y }
  let moves := if isValid right board then moves ++ ["right"] else moves
  let down : Coord := { x := pos.x, y := pos.y + 1 }
  let moves := if isValid down board then moves ++ ["down"] else moves
  let up : Coord := { x := pos.x, y := pos.y - 1 }
  let moves := if isValid up board then moves ++ ["up"] else moves
  moves

/-- Model of Go's `rand.Intn`: given the generator `rng`, `Intn rng n`
yields a value in `[0, n)`; `rand.Intn` panics when `n ≤ 0`, modelled as
`none`. -/
def Intn (rng : Nat → Nat) (n : Nat) : Option Nat :=
  if n = 0 then none else some (rng n % n)

/-- Embeds `randomMove` (src/main.go:193-200): index the fixed list
`["up", "down", "left", "right"]` at `rand.Intn` of its length.  The
`Shout` field is left at Go's zero value `""`. -/
def randomMove (rng : Nat → Nat) : Option MoveResponse :=
  let possibleMoves : List String := ["up", "down", "left", "right"]
  (Intn rng possibleMoves.length).bind fun i =>
    (possibleMoves[i]?).map fun move => { move := move, shout := "" }

/-- Embeds `makeMove` (src/main.go:181-190): compute `validMoves` of the
requester's head; if empty fall back to `randomMove`, otherwise index the
list at `rand.Intn` of its length. -/
def makeMove (rng : Nat → Nat) (game : GameRequest) : Option MoveResponse :=
  let possibleMoves := validMoves game.you.head game.board
  if possibleMoves.length = 0 then
    randomMove rng
  else
    (Intn rng possibleMoves.length).bind fun i =>
      (possibleMoves[i]?).map fun move => { move := move, shout := "" }

/-- The coordinate one unit from `pos` in direction `d`, as laid out in
`validMoves` (src/main.go:115-145). -/
def moveOffset (d : String) (pos : Coord) : Coord :=
  if d = "left" then { x := pos.x - 1, y := pos.y }
  else if d = "right" then { x := pos.x + 1, y := pos.y }
  else if d = "down" then { x := pos.x, y := pos.y + 1 }
  else { x := pos.x, y := pos.y - 1 }

/-! ### Helper lemmas shared by several claim theorems -/

/-- `isValid` succeeds exactly when both checks fail. -/
theorem isValid_eq_true_iff (pos : Coord) (board : Board) :
    isValid pos board = true ↔ (isEdge pos board = false ∧ isSnake pos board = false) := by
  simp [isValid]

/-- Membership of `"left"` in `validMoves` is decided by `isValid` at the
left neighbour. -/
theorem mem_validMoves_left (pos : Coord) (board : Board) :
    "left" ∈ validMoves pos board ↔ isValid { x := pos.x - 1, y := pos.y } board = true := by
  simp only [validMoves]
  cases h1 : isValid { x := pos.x - 1, y := pos.y } board <;>
  cases h2 : isValid { x := pos.x + 1, y := pos.y } board <;>
  cases h3 : isValid { x := pos.x, y := pos.y + 1 } board <;>
  cases h4 : isValid { x := pos.x, y := pos.y - 1 } board <;>
  simp_all

/-- Membership of `"right"` in `validMoves` is decided by `isValid` at the
right neighbour. -/
theorem mem_validMoves_right (pos : Coord) (board : Board) :
    "right" ∈ validMoves pos board ↔ isValid { x := pos.x + 1, y := pos.y } board = true := by
  simp only [validMoves]
  cases h1 : isValid { x := pos.x - 1, y := pos.y } board <;>
  cases h2 : isValid { x := pos.x + 1, y := pos.y } board <;>
  cases h3 : isValid { x := pos.x, y := pos.y + 1 } board <;>
  cases h4 : isValid { x := pos.x, y := pos.y - 1 } board <;>
  simp_all

/-- Membership of `"down"` in `validMoves` is decided by `isValid` at the
cell below (`y + 1`). -/
theorem mem_validMoves_down (pos : Coord) (board : Board) :
    "down" ∈ validMoves pos board ↔ isValid { x := pos.x, y := pos.y + 1 } board = true := by
  simp only [validMoves]
  cases h1 : isValid { x := pos.x - 1, y := pos.y } board <;>
  cases h2 : isValid { x := pos.x + 1, y := pos.y } board <;>
  cases h3 : isValid { x := pos.x, y := pos.y + 1 } board <;>
  cases h4 : isValid { x := pos.x, y := pos.y - 1 } board <;>
  simp_all

/-- Membership of `"up"` in `validMoves` is decided by `isValid` at the
cell above (`y - 1`). -/
theorem mem_validMoves_up (pos : Coord) (board : Board) :
    "up" ∈ validMoves pos board ↔ isValid { x := pos.x, y := pos.y - 1 } board = true := by
  simp only [validMoves]
  cases h1 : isValid { x := pos.x - 1, y := pos.y } board <;>
  cases h2 : isValid { x := pos.x + 1, y := pos.y } board <;>
  cases h3 : isValid { x := pos.x, y := pos.y + 1 } board <;>
  cases h4 : isValid { x := pos.x, y := pos.y - 1 } board <;>
  simp_all

/-- `validMoves` always yields a sublist of the fixed enumeration order. -/
theorem validMoves_sublist_core (pos : Coord) (board : Board) :
    (validMoves pos board).Sublist ["left", "right", "down", "up"] := by
  simp only [validMoves]
  cases isValid { x := pos.x - 1, y := pos.y } board <;>
  cases isValid { x := pos.x + 1, y := pos.y } board <;>
  cases isValid { x := pos.x, y := pos.y + 1 } board <;>
  cases isValid { x := pos.x, y := pos.y - 1 } board <;>
  simp

/-- `randomMove` always succeeds and yields one of the four directions. -/
theorem randomMove_total_aux (rng : Nat → Nat) :
    ∃ r, randomMove rng = some r ∧ r.move ∈ ["up", "down", "left", "right"] := by
  have hlt : rng 4 % 4 < 4 := Nat.mod_lt _ (by decide)
  have h4 : rng 4 % 4 = 0 ∨ rng 4 % 4 = 1 ∨ rng 4 % 4 = 2 ∨ rng 4 % 4 = 3 := by omega
  rcases h4 with h | h | h | h
  · exact ⟨{ move := "up", shout := "" }, by simp [randomMove, Intn, h], by simp⟩
  · exact ⟨{ move := "down", shout := "" }, by simp [randomMove, Intn, h], by simp⟩
  · exact ⟨{ move := "left", shout := "" }, by simp [randomMove, Intn, h], by simp⟩
  · exact ⟨{ move := "right", shout := "" }, by simp [randomMove, Intn, h], by simp⟩

/-- `isSnake` only reads each snake's body and head. -/
theorem isSnake_any_map (pos : Coord) (board : Board) :
    isSnake pos board =
      (board.snakes.map fun s => (s.body, s.head)).any fun p =>
        (p.1.any fun coord => coord.y == pos.y && coord.x == pos.x) ||
        (p.2.y == pos.y && p.2.x == pos.x) := by
  simp only [isSnake]
  generalize board.snakes = l
  induction l with
  | nil => rfl
  | cons s rest ih => simp [ih]

/-! ### Concrete fixtures used by the claim theorems and witnesses -/

/-- The opposing snake of Scenario C: body segments at `(6,5)` and `(5,4)`;
its head coincides with its first body segment so it adds no further
obstacle. -/
def scenarioCSnake : Battlesnake :=
  { id := "opponent", name := "opponent", health := 100,
    body := [{ x := 6, y := 5 }, { x := 5, y := 4 }],
    head := { x := 6, y := 5 }, length := 2, shout := "" }

/-- The 11x11 board of Scenario C. -/
def scenarioCBoard : Board :=
  { height := 11, width := 11, food := [], snakes := [scenarioCSnake] }

/-- A snake coiled in a ring around `(5,5)`, blocking all four neighbours. -/
def surroundedSnake : Battlesnake :=
  { id := "me", name := "me", health := 90,
    body := [{ x := 5, y := 5 }, { x := 4, y := 5 }, { x := 4, y := 4 },
             { x := 5, y := 4 }, { x := 6, y := 4 }, { x := 6, y := 5 },
             { x := 6, y := 6 }, { x := 5, y := 6 }],
    head := { x := 5, y := 5 }, length := 8, shout := "" }

/-- A request whose safe-move set is empty (Scenario D). -/
def trappedRequest : GameRequest :=
  { game := { id := "game-1", timeout := 500 }, turn := 7,
    board := { height := 11, width := 11, food := [], snakes := [surroundedSnake] },
    you := surroundedSnake }

/-- Same trapped position but with a different board content (extra food). -/
def trappedRequest2 : GameRequest :=
  { trappedRequest with
    board := { trappedRequest.board with food := [{ x := 0, y := 0 }] } }

/-- A snake used to exercise the occupancy check. -/
def ownSnake : Battlesnake :=
  { id := "me", name := "mine", health := 80,
    body := [{ x := 5, y := 5 }, { x := 4, y := 5 }, { x := 5, y := 4 },
             { x := 5, y := 6 }],
    head := { x := 5, y := 5 }, length := 4, shout := "" }

/-- `ownSnake` with every identity field changed but body and head kept. -/
def ownSnakeRelabelled : Battlesnake :=
  { id := "opponent", name := "theirs", health := 33,
    body := ownSnake.body, head := ownSnake.head, length := 4, shout := "hi" }

/-- Board containing `ownSnake`. -/
def ownBoard : Board :=
  { height := 11, width := 11, food := [], snakes := [ownSnake] }

/-- Board containing the relabelled copy of `ownSnake`. -/
def relabelledBoard : Board :=
  { height := 11, width := 11, food := [], snakes := [ownSnakeRelabelled] }

/-- Scenario-A-style request: open 11x11 board, head at `(5,5)`. -/
def openRequest : GameRequest :=
  { game := { id := "g", timeout := 500 }, turn := 0,
    board := { height := 11, width := 11, food := [], snakes := [] },
    you := { id := "y", name := "y", health := 100, body := [{ x := 5, y := 5 }],
             head := { x := 5, y := 5 }, length := 1, shout := "" } }

/-- A request whose own snake's body is listed only in the `you` field, not
on the board. -/
def headOnlyReq1 : GameRequest :=
  { game := { id := "a", timeout := 500 }, turn := 3,
    board := { height := 11, width := 11, food := [{ x := 2, y := 2 }],
               snakes := [scenarioCSnake] },
    you := { id := "me", name := "m", health := 50,
             body := [{ x := 5, y := 5 }, { x := 5, y := 6 }],
             head := { x := 5, y := 5 }, length := 2, shout := "" } }

/-- Same board and head as `headOnlyReq1`, with every other field of the
request changed. -/
def headOnlyReq2 : GameRequest :=
  { game := { id := "b", timeout := 100 }, turn := 99,
    board := headOnlyReq1.board,
    you := { id := "other", name := "n", health := 1, body := [],
             head := { x := 5, y := 5 }, length := 0, shout := "x" } }

/-! ### Claim theorems -/

/-- C1: a direction is in `validMoves` if and only if the coordinate one
unit from the head in that direction is in-bounds (`isEdge` false) and not
on any snake's body or head (`isSnake` false). -/
theorem validMoves_safety_filter (pos : Coord) (board : Board) :
    ∀ d ∈ ["left", "right", "down", "up"],
      (d ∈ validMoves pos board ↔
        (isEdge (moveOffset d pos) board = false ∧
         isSnake (moveOffset d pos) board = false)) := by
  intro d hd
  simp only [List.mem_cons, List.not_mem_nil, or_false] at hd
  rcases hd with rfl | rfl | rfl | rfl
  · rw [mem_validMoves_left, isValid_eq_true_iff]
    simp [moveOffset]
  · rw [mem_validMoves_right, isValid_eq_true_iff]
    simp [moveOffset]
  · rw [mem_validMoves_down, isValid_eq_true_iff]
    simp [moveOffset]
  · rw [mem_validMoves_up, isValid_eq_true_iff]
    simp [moveOffset]

/-- Witness for C1 at `d = "up"` on the open 11x11 board. -/
theorem validMoves_safety_filter_witness :
    "up" ∈ (["left", "right", "down", "up"] : List String) ∧
    ("up" ∈ validMoves { x := 5, y := 5 } openRequest.board ↔
      (isEdge (moveOffset "up" { x := 5, y := 5 }) openRequest.board = false ∧
       isSnake (moveOffset "up" { x := 5, y := 5 }) openRequest.board = false)) :=
  ⟨by decide, validMoves_safety_filter { x := 5, y := 5 } openRequest.board "up" (by decide)⟩

/-- C2: `isEdge` rejects exactly when `x > width - 1`, `x < 0`, `y < 0` or
`y > height + 1`; in particular `y = height` and `y = height + 1` are
accepted as in-bounds whenever `x` is in range. -/
theorem isEdge_bounds_rule (pos : Coord) (board : Board) :
    (isEdge pos board = true ↔
      (pos.x > board.width - 1 ∨ pos.x < 0 ∨ pos.y < 0 ∨ pos.y > board.height + 1)) ∧
    (0 ≤ board.height → 0 ≤ pos.x → pos.x ≤ board.width - 1 →
      isEdge { x := pos.x, y := board.height } board = false ∧
      isEdge { x := pos.x, y := board.height + 1 } board = false) := by
  constructor
  · simp only [isEdge, Bool.or_eq_true, decide_eq_true_eq]
    tauto
  · intro hh h0 hw
    constructor <;> simp only [isEdge, Bool.or_eq_false_iff, decide_eq_false_iff_not, not_lt] <;>
      refine ⟨⟨⟨?_, ?_⟩, ?_⟩, ?_⟩ <;> omega

/-- Witness for C2: on an 11x11 board with `x = 5`, the rows `y = 11` and
`y = 12` pass the bounds check. -/
theorem isEdge_bounds_rule_witness :
    (0 : Int) ≤ 11 ∧ (0 : Int) ≤ 5 ∧ (5 : Int) ≤ 11 - 1 ∧
    (isEdge { x := 5, y := 11 } scenarioCBoard = false ∧
     isEdge { x := 5, y := 12 } scenarioCBoard = false) :=
  ⟨by decide, by decide, by decide,
   (isEdge_bounds_rule { x := 5, y := 5 } scenarioCBoard).2 (by decide) (by decide) (by decide)⟩

/-- C3: `makeMove` always returns exactly one move, the move is one of the
four direction strings, and no indexing error or `rand.Intn` panic occurs
(the result is never `none`). -/
theorem makeMove_total (rng : Nat → Nat) (game : GameRequest) :
    ∃ r, makeMove rng game = some r ∧ r.move ∈ ["up", "down", "left", "right"] := by
  by_cases h : (validMoves game.you.head game.board).length = 0
  · obtain ⟨r, hr, hm⟩ := randomMove_total_aux rng
    exact ⟨r, by simp [makeMove, h, hr], hm⟩
  · have hpos : 0 < (validMoves game.you.head game.board).length := Nat.pos_of_ne_zero h
    have hlt : rng (validMoves game.you.head game.board).length %
        (validMoves game.you.head game.board).length <
        (validMoves game.you.head game.board).length := Nat.mod_lt _ hpos
    refine ⟨{ move := (validMoves game.you.head game.board).get ⟨_, hlt⟩, shout := "" },
      ?_, ?_⟩
    · simp [makeMove, h, Intn, List.getElem?_eq_getElem hlt]
    · have hmem : (validMoves game.you.head game.board).get ⟨_, hlt⟩ ∈
          validMoves game.you.head game.board := List.get_mem _ _ hlt
      have hsub := (validMoves_sublist_core game.you.head game.board).subset hmem
      simp only [List.mem_cons, List.not_mem_nil, or_false] at hsub ⊢
      tauto

/-- C4: with an empty safe-move set, `makeMove` is exactly the fallback
`randomMove`, whose result depends only on the randomness source: two
requests with empty safe-move sets and the same randomness outcome yield
the same move whatever their boards hold, and that move is one of the four
directions. -/
theorem makeMove_fallback_board_independent (rng : Nat → Nat) (g1 g2 : GameRequest)
    (h1 : validMoves g1.you.head g1.board = [])
    (h2 : validMoves g2.you.head g2.board = []) :
    makeMove rng g1 = randomMove rng ∧ makeMove rng g1 = makeMove rng g2 ∧
    ∃ r, makeMove rng g1 = some r ∧ r.move ∈ ["up", "down", "left", "right"] := by
  have e1 : makeMove rng g1 = randomMove rng := by simp [makeMove, h1]
  have e2 : makeMove rng g2 = randomMove rng := by simp [makeMove, h2]
  obtain ⟨r, hr, hm⟩ := randomMove_total_aux rng
  exact ⟨e1, by rw [e1, e2], r, by rw [e1, hr], hm⟩

/-- Witness for C4 on two trapped requests whose boards differ in food. -/
theorem makeMove_fallback_board_independent_witness :
    validMoves trappedRequest.you.head trappedRequest.board = [] ∧
    validMoves trappedRequest2.you.head trappedRequest2.board = [] ∧
    (makeMove (fun _ => 2) trappedRequest = randomMove (fun _ => 2) ∧
     makeMove (fun _ => 2) trappedRequest = makeMove (fun _ => 2) trappedRequest2 ∧
     ∃ r, makeMove (fun _ => 2) trappedRequest = some r ∧
       r.move ∈ ["up", "down", "left", "right"]) :=
  ⟨by decide, by decide,
   makeMove_fallback_board_independent (fun _ => 2) trappedRequest trappedRequest2
     (by decide) (by decide)⟩

/-- C5: occupancy is uniform over snakes: `isSnake` holds exactly when some
snake on the board (the agent's own copy included, with no distinction) has
a body segment or head at the position, and it is invariant under any
relabelling of the snakes that keeps their bodies and heads. -/
theorem isSnake_no_self_bias (pos : Coord) (board : Board) :
    (isSnake pos board = true ↔
      ∃ s ∈ board.snakes,
        (∃ c ∈ s.body, c.x = pos.x ∧ c.y = pos.y) ∨
        (s.head.x = pos.x ∧ s.head.y = pos.y)) ∧
    (∀ b2 : Board,
      board.snakes.map (fun s => (s.body, s.head)) =
        b2.snakes.map (fun s => (s.body, s.head)) →
      isSnake pos board = isSnake pos b2) := by
  constructor
  · simp only [isSnake, List.any_eq_true, Bool.or_eq_true, Bool.and_eq_true, beq_iff_eq]
    constructor
    · rintro ⟨s, hs, ⟨c, hc, hy, hx⟩ | ⟨hy, hx⟩⟩
      · exact ⟨s, hs, Or.inl ⟨c, hc, hx, hy⟩⟩
      · exact ⟨s, hs, Or.inr ⟨hx, hy⟩⟩
    · rintro ⟨s, hs, ⟨c, hc, hx, hy⟩ | ⟨hx, hy⟩⟩
      · exact ⟨s, hs, Or.inl ⟨c, hc, hy, hx⟩⟩
      · exact ⟨s, hs, Or.inr ⟨hy, hx⟩⟩
  · intro b2 h
    rw [isSnake_any_map, isSnake_any_map, h]

/-- Witness for C5: relabelling the only snake (id, name, health, shout
changed; body and head kept) leaves the occupancy verdict unchanged. -/
theorem isSnake_no_self_bias_witness :
    isSnake { x := 4, y := 5 } ownBoard = isSnake { x := 4, y := 5 } relabelledBoard :=
  (isSnake_no_self_bias { x := 4, y := 5 } ownBoard).2 relabelledBoard (by decide)

/-- C6: food never influences the decision: replacing the board's food list
changes neither `isValid` on any cell, nor the safe-move list, nor (for the
same randomness outcome) the returned move. -/
theorem food_never_influences (rng : Nat → Nat) (g : GameRequest) (food2 : List Coord) :
    (∀ pos : Coord, isValid pos { g.board with food := food2 } = isValid pos g.board) ∧
    validMoves g.you.head { g.board with food := food2 } = validMoves g.you.head g.board ∧
    makeMove rng { g with board := { g.board with food := food2 } } = makeMove rng g :=
  ⟨fun _ => rfl, rfl, rfl⟩

/-- C7: the direction-to-offset mapping is left `(x-1,y)`, right `(x+1,y)`,
down `(x,y+1)`, up `(x,y-1)` (y grows downward), and in Scenario C — 11x11
board, head `(5,5)`, opposing segments at `(6,5)` and `(5,4)` — exactly
"right" and "up" are excluded, leaving `["left", "down"]`. -/
theorem direction_offsets_scenarioC (pos : Coord) (board : Board) :
    (("left" ∈ validMoves pos board) ↔
      isValid { x := pos.x - 1, y := pos.y } board = true) ∧
    (("right" ∈ validMoves pos board) ↔
      isValid { x := pos.x + 1, y := pos.y } board = true) ∧
    (("down" ∈ validMoves pos board) ↔
      isValid { x := pos.x, y := pos.y + 1 } board = true) ∧
    (("up" ∈ validMoves pos board) ↔
      isValid { x := pos.x, y := pos.y - 1 } board = true) ∧
    validMoves { x := 5, y := 5 } scenarioCBoard = ["left", "down"] :=
  ⟨mem_validMoves_left pos board, mem_validMoves_right pos board,
   mem_validMoves_down pos board, mem_validMoves_up pos board, by decide⟩

/-- C8: the decision reads the agent's own snake only through its head:
equal boards and equal head coordinates give equal safe-move lists and (for
the same randomness outcome) equal moves, whatever the other `you`, turn
and game fields hold. -/
theorem decision_depends_only_on_head_and_board (rng : Nat → Nat) (g1 g2 : GameRequest)
    (hb : g1.board = g2.board) (hh : g1.you.head = g2.you.head) :
    validMoves g1.you.head g1.board = validMoves g2.you.head g2.board ∧
    makeMove rng g1 = makeMove rng g2 := by
  constructor
  · rw [hb, hh]
  · simp only [makeMove]
    rw [hb, hh]

/-- Witness for C8: two requests sharing only board and head (body, health,
length, turn, game id all differ; the own body in `you` is absent from the
second request) decide identically. -/
theorem decision_depends_only_on_head_and_board_witness :
    validMoves headOnlyReq1.you.head headOnlyReq1.board =
      validMoves headOnlyReq2.you.head headOnlyReq2.board ∧
    makeMove (fun _ => 1) headOnlyReq1 = makeMove (fun _ => 1) headOnlyReq2 :=
  decision_depends_only_on_head_and_board (fun _ => 1) headOnlyReq1 headOnlyReq2 rfl rfl

/-- C9: whenever `makeMove` returns a response, its `shout` field is the
empty string: neither branch ever sets it. -/
theorem moveResponse_shout_empty (rng : Nat → Nat) (game : GameRequest)
    (r : MoveResponse) (h : makeMove rng game = some r) : r.shout = "" := by
  simp only [makeMove, randomMove, Intn] at h
  split at h
  · simp only [List.length_cons, List.length_nil] at h
    rw [if_neg (by omega)] at h
    simp only [Option.some_bind, Option.map_eq_some'] at h
    obtain ⟨m, _, hr⟩ := h
    rw [← hr]
  · simp only [Option.some_bind, Option.map_eq_some'] at h
    obtain ⟨m, _, hr⟩ := h
    rw [← hr]

/-- Witness for C9: on the open board with `rng = 0`, `makeMove` returns
`"left"` with an empty shout. -/
theorem moveResponse_shout_empty_witness :
    ({ move := "left", shout := "" } : MoveResponse).shout = "" :=
  moveResponse_shout_empty (fun _ => 0) openRequest
    { move := "left", shout := "" } (by decide)

/-- C10: `validMoves` lists each direction at most once, has at most four
elements, and its elements keep the fixed relative order left, right, down,
up (it is a sublist of that enumeration). -/
theorem validMoves_order_nodup (pos : Coord) (board : Board) :
    (validMoves pos board).Sublist ["left", "right", "down", "up"] ∧
    (validMoves pos board).Nodup ∧ (validMoves pos board).length ≤ 4 := by
  have hs := validMoves_sublist_core pos board
  refine ⟨hs, hs.nodup (by decide), ?_⟩
  simpa using hs.length_le
